import Mathlib

/-!
Verification of the cost-minimization procurement script (src/costmin.py).

The script builds a MILP with PuLP: continuous purchase variables
x[i, s, m], binary sourcing indicators z[i, m, s] and continuous
penalty variables p_plus[i], p_minus[i], adds five constraint families,
minimizes cost plus penalties, solves with CBC and prints a report.

This file shallowly embeds the data tables, the variable families, the
constraint rows, the objective and the reporting functions, and proves
properties about them.  Quantities and prices are modelled as rationals.
-/

namespace CostMin

/-! ### Domain data, transcribed from the three dicts in src/costmin.py.
Python dicts preserve insertion order, so each dict is modelled as an
association list in the source order; lookups mirror dict access. -/

def demandTbl : List (String × ℚ) :=
  [("A1", 7), ("A2", 18), ("A3", 14), ("A4", 11), ("A5", 3),
   ("B1", 3), ("B2", 6), ("B3", 17), ("B4", 12),
   ("C1", 14), ("C2", 4), ("C3", 15), ("C4", 19),
   ("D2", 16), ("D3", 5), ("D4", 2)]

def costsTbl : List (String × List (String × ℚ)) :=
  [("supplier 1", [("white", 35), ("yellow", 32), ("pink", 45), ("gray", 50)]),
   ("supplier 2", [("white", 32), ("yellow", 20), ("pink", 30), ("gray", 40)]),
   ("supplier 3", [("white", 24), ("yellow", 18), ("pink", 20), ("gray", 35)])]

def compTbl : List (String × List (String × ℚ)) :=
  [("A1", [("white", 58), ("yellow", 38), ("pink", 0), ("gray", 4)]),
   ("A2", [("white", 91.72), ("yellow", 4.5), ("pink", 1.28), ("gray", 2.5)]),
   ("A3", [("white", 25), ("yellow", 75), ("pink", 0), ("gray", 0)]),
   ("A4", [("white", 9), ("yellow", 89), ("pink", 1), ("gray", 1)]),
   ("A5", [("white", 77.01), ("yellow", 15), ("pink", 2.99), ("gray", 5)]),
   ("B1", [("white", 5), ("yellow", 95), ("pink", 0), ("gray", 0)]),
   ("B2", [("white", 2), ("yellow", 88), ("pink", 0), ("gray", 10)]),
   ("B3", [("white", 35.6), ("yellow", 35), ("pink", 9.4), ("gray", 20)]),
   ("B4", [("white", 51), ("yellow", 43), ("pink", 0), ("gray", 6)]),
   ("C1", [("white", 43), ("yellow", 54), ("pink", 0), ("gray", 3)]),
   ("C2", [("white", 20), ("yellow", 80), ("pink", 0), ("gray", 0)]),
   ("C3", [("white", 0), ("yellow", 100), ("pink", 0), ("gray", 0)]),
   ("C4", [("white", 41), ("yellow", 54), ("pink", 0), ("gray", 5)]),
   ("D2", [("white", 0), ("yellow", 88), ("pink", 0), ("gray", 12)]),
   ("D3", [("white", 24), ("yellow", 64), ("pink", 0), ("gray", 12)]),
   ("D4", [("white", 1), ("yellow", 90), ("pink", 0), ("gray", 9)])]

/-- Key iteration order of the demand dict (the product lines). -/
def lines : List String := demandTbl.map Prod.fst

/-- Key iteration order of the costs dict (the suppliers). -/
def suppliers : List String := costsTbl.map Prod.fst

/-- Key iteration order of the composition dict. -/
def compKeys : List String := compTbl.map Prod.fst

/-- Association-list lookup with default; the default is never reached by
the script because every lookup is over keys that are being iterated. -/
def lookup1 (tbl : List (String × ℚ)) (k : String) : ℚ :=
  ((tbl.find? fun p => p.1 == k).map Prod.snd).getD 0

def demand (i : String) : ℚ := lookup1 demandTbl i

def compRow (i : String) : List (String × ℚ) :=
  ((compTbl.find? fun p => p.1 == i).map Prod.snd).getD []

/-- The materials of product line i, in dict iteration order
(ceramic_composition[i] keys). -/
def materials (i : String) : List String := (compRow i).map Prod.fst

/-- ceramic_composition[i][m]. -/
def comp (i m : String) : ℚ := lookup1 (compRow i) m

def costsRow (s : String) : List (String × ℚ) :=
  ((costsTbl.find? fun p => p.1 == s).map Prod.snd).getD []

/-- costs[s][m] with the full price table of the script. -/
def costs (s m : String) : ℚ := lookup1 (costsRow s) m

/-! ### Decision variables -/

/-- The variable families of the model: x (continuous purchases),
z (binary sourcing indicators), p_plus and p_minus (penalties). -/
inductive Var where
  | x (i s m : String)
  | z (i m s : String)
  | pPlus (i : String)
  | pMinus (i : String)
deriving DecidableEq, Repr

def isXVar : Var → Bool
  | .x _ _ _ => true
  | _ => false

def isZVar : Var → Bool
  | .z _ _ _ => true
  | _ => false

/-! ### Linear constraints -/

inductive Rel where
  | le
  | eq
  | ge
deriving DecidableEq, Repr

/-- A linear constraint row: sum of coeff * var compared with a constant. -/
structure Constraint where
  lhs : List (ℚ × Var)
  rel : Rel
  rhs : ℚ
deriving DecidableEq, Repr

def evalTerms (a : Var → ℚ) (ts : List (ℚ × Var)) : ℚ :=
  (ts.map fun t => t.1 * a t.2).sum

def Constraint.sat (a : Var → ℚ) (c : Constraint) : Prop :=
  match c.rel with
  | .le => evalTerms a c.lhs ≤ c.rhs
  | .eq => evalTerms a c.lhs = c.rhs
  | .ge => c.rhs ≤ evalTerms a c.lhs

/-- Constraint 1 (line 59): at least one unit in total must be bought from
"supplier 1" for each line — a sum of x variables over the line's materials. -/
def primaryCon (i : String) : Constraint :=
  ⟨(materials i).map fun m => ((1 : ℚ), Var.x i "supplier 1" m), .ge, 1⟩

/-- Constraint 2 (line 63): at most two materials of each line may be sourced
from "supplier 3" — a sum of z indicators over the line's materials. -/
def tertiaryCon (i : String) : Constraint :=
  ⟨(materials i).map fun m => ((1 : ℚ), Var.z i m "supplier 3"), .le, 2⟩

/-- Constraint 3 (line 68): the amount of each powder bought across suppliers
equals the composition requirement. -/
def eqCon (i m : String) : Constraint :=
  ⟨suppliers.map fun s => ((1 : ℚ), Var.x i s m), .eq, comp i m⟩

/-- Constraint 4 (line 72): total purchases of a line equal demand plus
p_plus minus p_minus; variables collected on the left, demand on the right. -/
def demandCon (i : String) : Constraint :=
  ⟨(suppliers.flatMap fun s => (materials i).map fun m => ((1 : ℚ), Var.x i s m))
      ++ [((-1 : ℚ), Var.pPlus i), ((1 : ℚ), Var.pMinus i)],
   .eq, demand i⟩

/-- Constraint 5a (line 77): each powder of each line is sourced from exactly
one supplier. -/
def oneSupCon (i m : String) : Constraint :=
  ⟨suppliers.map fun s => ((1 : ℚ), Var.z i m s), .eq, 1⟩

/-- Constraint 5b (line 79): x[i,s,m] <= z[i,m,s] * ceramic_composition[i][m]. -/
def linkCon (i m s : String) : Constraint :=
  ⟨[((1 : ℚ), Var.x i s m), (-(comp i m), Var.z i m s)], .le, 0⟩

/-- All constraint rows of the model, in the order the script adds them. -/
def allConstraints : List Constraint :=
  (lines.map primaryCon)
    ++ (lines.map tertiaryCon)
    ++ (compKeys.flatMap fun i => (materials i).map fun m => eqCon i m)
    ++ (lines.map demandCon)
    ++ (lines.flatMap fun i => (materials i).flatMap fun m =>
          oneSupCon i m :: suppliers.map fun s => linkCon i m s)

/-! ### Variable domains, feasibility, objective -/

/-- Variable domains of the model: x, p_plus, p_minus are continuous with
lower bound 0 and no upper bound; z is binary. -/
def VarOk (a : Var → ℚ) : Prop :=
  (∀ i s m, 0 ≤ a (.x i s m)) ∧
  (∀ i, 0 ≤ a (.pPlus i)) ∧
  (∀ i, 0 ≤ a (.pMinus i)) ∧
  (∀ i m s, a (.z i m s) = 0 ∨ a (.z i m s) = 1)

/-- An assignment is feasible when it respects the variable domains and
satisfies every constraint row of the model. -/
def Feasible (a : Var → ℚ) : Prop :=
  VarOk a ∧ ∀ c ∈ allConstraints, c.sat a

def sumOver (l : List α) (f : α → ℚ) : ℚ := (l.map f).sum

/-- The objective of lines 52-53: purchase cost plus weighted penalties,
with the literal weights 0.02 and 0.05 of the source. -/
def objective (a : Var → ℚ) : ℚ :=
  sumOver lines (fun i => sumOver suppliers fun s =>
      sumOver (materials i) fun m => a (.x i s m) * costs s m)
    + 0.02 * sumOver lines (fun i => a (.pPlus i))
    + 0.05 * sumOver lines (fun i => a (.pMinus i))

/-- An optimal assignment: feasible and of minimal objective value. -/
def Optimal (a : Var → ℚ) : Prop :=
  Feasible a ∧ ∀ b, Feasible b → objective a ≤ objective b

/-! ### Spec-side decomposition of the objective, for comparison. -/

def wPlus : ℚ := 0.02

def wMinus : ℚ := 0.05

def purchaseCost (a : Var → ℚ) : ℚ :=
  sumOver lines fun i => sumOver suppliers fun s =>
    sumOver (materials i) fun m => a (.x i s m) * costs s m

def totalPPlus (a : Var → ℚ) : ℚ := sumOver lines fun i => a (.pPlus i)

def totalPMinus (a : Var → ℚ) : ℚ := sumOver lines fun i => a (.pMinus i)

/-! ### A concrete feasible assignment: buy everything from "supplier 1".
Every composition row sums to 100, so the demand constraint is met by
setting p_plus to 100 minus the demand. -/

def aStar : Var → ℚ
  | .x i s m => if s = "supplier 1" then comp i m else 0
  | .z _ _ s => if s = "supplier 1" then 1 else 0
  | .pPlus i => 100 - demand i
  | .pMinus _ => 0

/-! ### Python-style errors and the fallible objective construction.
Line 52 of the script evaluates costs[s][m] for every triple; a missing
material key in a supplier's price dict raises KeyError(m) there, before
prob.solve on line 82 is ever reached.  An out-of-range list index (as in
the summary-table renderer) raises IndexError. -/

inductive PyErr where
  | keyError (k : String)
  | indexError
deriving DecidableEq, Repr

/-- costs[s][m] on an arbitrary price table: Python raises KeyError(s) when
the supplier is absent and KeyError(m) when the material is absent. -/
def priceLookup (costsD : List (String × List (String × ℚ))) (s m : String) :
    Except PyErr ℚ :=
  match costsD.find? fun p => p.1 == s with
  | none => .error (.keyError s)
  | some p =>
    match p.2.find? fun q => q.1 == m with
    | none => .error (.keyError m)
    | some q => .ok q.2

/-- Effectful map over a list that aborts at the first error, like a Python
generator being consumed inside lpSum. -/
def mapME (f : α → Except PyErr β) : List α → Except PyErr (List β)
  | [] => .ok []
  | a :: l =>
    match f a with
    | .error e => .error e
    | .ok b =>
      match mapME f l with
      | .error e => .error e
      | .ok bs => .ok (b :: bs)

/-- The (i, s, m) triples of the objective generator of line 52, in source
order: for i in demand, for s in costs, for m in ceramic_composition[i]. -/
def objTriples (costsD : List (String × List (String × ℚ))) :
    List (String × String × String) :=
  lines.flatMap fun i => (costsD.map Prod.fst).flatMap fun s =>
    (materials i).map fun m => (i, s, m)

/-- One objective term x[i,s,m] * costs[s][m] of line 52: the price lookup
may raise, and on success the term pairs the price coefficient with the
variable. -/
def objTerm (costsD : List (String × List (String × ℚ)))
    (t : String × String × String) : Except PyErr (ℚ × Var) :=
  match priceLookup costsD t.2.1 t.2.2 with
  | .error e => .error e
  | .ok c => .ok (c, Var.x t.1 t.2.1 t.2.2)

/-- The objective terms x[i,s,m] * costs[s][m] of line 52, built over an
arbitrary price table; aborts with the Python error at the first missing
price. -/
def buildObjective (costsD : List (String × List (String × ℚ))) :
    Except PyErr (List (ℚ × Var)) :=
  mapME (objTerm costsD) (objTriples costsD)

/-- Model construction: the objective terms of line 52 plus the constraint
rows of lines 58-79 (the constraints perform no price lookups). -/
def buildModel (costsD : List (String × List (String × ℚ))) :
    Except PyErr (List (ℚ × Var) × List Constraint) :=
  match buildObjective costsD with
  | .error e => .error e
  | .ok obj => .ok (obj, allConstraints)

/-! ### The report of lines 85-121 -/

/-- Solver status as reported by PuLP after line 82. -/
inductive Status where
  | optimal
  | infeasible
  | unbounded
  | notSolved
  | undefined
deriving DecidableEq, Repr

/-- A solve outcome: a status together with the variable values the solver
left behind. -/
structure SolveResult where
  status : Status
  val : Var → ℚ

/-- The detail view of lines 85-91: for each line of the composition dict,
each of its materials and each supplier, an entry whenever the solved value
compares non-equal with 0 (there is no break: all suppliers are examined). -/
def detailEntries (val : Var → ℚ) : List (String × String × String × ℚ) :=
  compKeys.flatMap fun i => (materials i).flatMap fun m =>
    (suppliers.filter fun s => decide (val (.x i s m) ≠ 0)).map fun s =>
      (i, m, s, val (.x i s m))

/-- Python s[-1] on a non-empty string: its last character.  Every supplier
key of the script is non-empty, so the empty-string IndexError of Python is
not modelled. -/
def pyLastChar (s : String) : String :=
  ((s.data.getLast?).map fun c => String.mk [c]).getD ""

/-- Python format spec :<n — left-justify by padding with spaces to width n,
never truncating. -/
def padRight (s : String) (n : Nat) : String :=
  s ++ String.mk (List.replicate (n - s.length) ' ')

/-- The row of suppliers collected on lines 105-114 for one product line:
the line name, then for each of its materials the label of the first supplier
with value > 0 (the loop breaks at the first hit) or "0" when none has. -/
def rowFor (val : Var → ℚ) (costsKeys : List String) (i : String)
    (mrow : List (String × ℚ)) : List String :=
  i :: mrow.map fun p =>
    match costsKeys.find? fun s => decide (0 < val (.x i s p.1)) with
    | some s => "supplier " ++ pyLastChar s
    | none => "0"

/-- Line 115 formats row[0] through row[4] under fixed widths; Python raises
IndexError when the row has fewer than five entries, and entries beyond
row[4] are ignored. -/
def pyFormatRow : List String → Except PyErr String
  | r0 :: r1 :: r2 :: r3 :: r4 :: _ =>
    .ok (padRight r0 15 ++ " | " ++ padRight r1 10 ++ " | " ++ padRight r2 10
      ++ " | " ++ padRight r3 10 ++ " | " ++ padRight r4 10 ++ "\n")
  | _ => .error .indexError

def tableHeader : String :=
  padRight "Dental implantation" 15 ++ " | " ++ padRight "White" 10 ++ " | "
    ++ padRight "Yellow" 10 ++ " | " ++ padRight "Pink" 10 ++ " | "
    ++ padRight "Gray" 10 ++ "\n"

def tableDivider : String := String.mk (List.replicate 60 '_') ++ "\n"

/-- The row loop of lines 104-115, aborting at the first IndexError. -/
def buildRows (val : Var → ℚ) (costsKeys : List String) :
    List (String × List (String × ℚ)) → Except PyErr String
  | [] => .ok ""
  | (i, mrow) :: rest =>
    match pyFormatRow (rowFor val costsKeys i mrow) with
    | .error e => .error e
    | .ok r =>
      match buildRows val costsKeys rest with
      | .error e => .error e
      | .ok rs => .ok (r ++ rs)

/-- generate_formatted_table_with_suppliers of lines 97-117: header, divider,
then one formatted row per entry of the composition table. -/
def generate_formatted_table_with_suppliers (val : Var → ℚ)
    (compT : List (String × List (String × ℚ))) (costsKeys : List String) :
    Except PyErr String :=
  match buildRows val costsKeys compT with
  | .error e => .error e
  | .ok rows => .ok (tableHeader ++ tableDivider ++ rows)

/-- Everything the script emits after the solve call of line 82: the detail
view, the total cost, and the summary table.  Lines 85-121 never consult the
solver status, so this is a function of the variable values only. -/
structure Report where
  detail : List (String × String × String × ℚ)
  totalCost : ℚ
  table : Except PyErr String

def scriptReport (r : SolveResult) : Report :=
  ⟨detailEntries r.val, objective r.val,
    generate_formatted_table_with_suppliers r.val compTbl suppliers⟩

/-- The whole pipeline: build the model (which can raise before solving),
then solve and report.  The solver is an opaque parameter; when model
construction raises, it is never invoked. -/
def runScript (costsD : List (String × List (String × ℚ)))
    (solver : List (ℚ × Var) × List Constraint → SolveResult) :
    Except PyErr Report :=
  match buildModel costsD with
  | .error e => .error e
  | .ok model => .ok (scriptReport (solver model))

/-! ### Concrete inputs used to exercise the definitions -/

/-- The script's price table with the pink price of supplier 2 removed. -/
def costsMissingS2pink : List (String × List (String × ℚ)) :=
  [("supplier 1", [("white", 35), ("yellow", 32), ("pink", 45), ("gray", 50)]),
   ("supplier 2", [("white", 32), ("yellow", 20), ("gray", 40)]),
   ("supplier 3", [("white", 24), ("yellow", 18), ("pink", 20), ("gray", 35)])]

/-- The script's price table with the pink price of supplier 3 removed. -/
def costsMissingS3pink : List (String × List (String × ℚ)) :=
  [("supplier 1", [("white", 35), ("yellow", 32), ("pink", 45), ("gray", 50)]),
   ("supplier 2", [("white", 32), ("yellow", 20), ("pink", 30), ("gray", 40)]),
   ("supplier 3", [("white", 24), ("yellow", 18), ("gray", 35)])]

/-- An assignment with a single, tiny, non-zero value. -/
def tinyVal : Var → ℚ := fun v =>
  match v with
  | .x "A1" "supplier 2" "white" => 1 / 1000000000
  | _ => 0

/-- The all-ones assignment. -/
def oneVal : Var → ℚ := fun _ => 1

/-- A composition table whose single line has three materials. -/
def compShort : List (String × List (String × ℚ)) :=
  [("L1", [("white", 1), ("yellow", 2), ("pink", 3)])]

/-- A composition table whose single line has five materials. -/
def compLong : List (String × List (String × ℚ)) :=
  [("L1", [("white", 1), ("yellow", 2), ("pink", 3), ("gray", 4), ("blue", 5)])]

end CostMin

namespace CostMin

/-! ### Helper lemmas -/

theorem compKeys_eq_lines : compKeys = lines := rfl

theorem compTbl_vals_nonneg : ∀ p ∈ compTbl, ∀ q ∈ p.2, 0 ≤ q.2 := by
  intro p hp q hq
  fin_cases hp <;> simp_all [compTbl] <;> rcases hq with h | h | h | h <;>
    simp [h] <;> norm_num

theorem compRow_cases (i : String) :
    compRow i = [] ∨ ∃ p ∈ compTbl, compRow i = p.2 := by
  unfold compRow
  cases hf : compTbl.find? fun p => p.1 == i with
  | none => exact Or.inl rfl
  | some p => exact Or.inr ⟨p, List.mem_of_find?_eq_some hf, by simp⟩

theorem comp_nonneg (i m : String) : 0 ≤ comp i m := by
  unfold comp lookup1
  cases hf : (compRow i).find? fun q => q.1 == m with
  | none => simp
  | some q =>
    simp only [Option.map_some', Option.getD_some]
    rcases compRow_cases i with h | ⟨p, hp, h⟩
    · rw [h] at hf; simp at hf
    · exact compTbl_vals_nonneg p hp q (h ▸ List.mem_of_find?_eq_some hf)

theorem demand_le_100 (i : String) : demand i ≤ 100 := by
  unfold demand lookup1
  cases hf : demandTbl.find? fun p => p.1 == i with
  | none => norm_num
  | some q =>
    simp only [Option.map_some', Option.getD_some]
    have hq := List.mem_of_find?_eq_some hf
    fin_cases hq <;> norm_num

theorem evalTerms_append (a : Var → ℚ) (l1 l2 : List (ℚ × Var)) :
    evalTerms a (l1 ++ l2) = evalTerms a l1 + evalTerms a l2 := by
  simp [evalTerms]

theorem evalTerms_map_one (a : Var → ℚ) (l : List α) (f : α → Var) :
    evalTerms a (l.map fun t => ((1 : ℚ), f t)) = sumOver l fun t => a (f t) := by
  simp [evalTerms, sumOver, List.map_map, Function.comp_def]

theorem aStar_sat_primary : ∀ i ∈ lines, (primaryCon i).sat aStar := by
  intro i hi
  fin_cases hi <;>
    simp [primaryCon, Constraint.sat, evalTerms, materials, compRow,
      compTbl, comp, lookup1, aStar] <;>
    norm_num

theorem aStar_sat_tertiary (i : String) : (tertiaryCon i).sat aStar := by
  have hz : ∀ m, aStar (Var.z i m "supplier 3") = 0 := by intro m; simp [aStar]
  unfold tertiaryCon Constraint.sat
  rw [evalTerms_map_one]
  simp [sumOver, hz]

theorem aStar_sat_eqCon (i m : String) : (eqCon i m).sat aStar := by
  simp [eqCon, Constraint.sat, evalTerms, suppliers, costsTbl, aStar]

theorem aStar_sat_demand : ∀ i ∈ lines, (demandCon i).sat aStar := by
  intro i hi
  fin_cases hi <;>
    simp [demandCon, Constraint.sat, evalTerms, suppliers, costsTbl,
      materials, compRow, compTbl, comp, lookup1, aStar, demand, demandTbl] <;>
    norm_num

theorem aStar_sat_oneSup (i m : String) : (oneSupCon i m).sat aStar := by
  simp [oneSupCon, Constraint.sat, evalTerms, suppliers, costsTbl, aStar]

theorem aStar_sat_link (i m s : String) : (linkCon i m s).sat aStar := by
  by_cases hs : s = "supplier 1"
  · subst hs
    simp [linkCon, Constraint.sat, evalTerms, aStar]
  · simp [linkCon, Constraint.sat, evalTerms, aStar, hs]

theorem aStar_varOk : VarOk aStar := by
  refine ⟨?_, ?_, ?_, ?_⟩
  · intro i s m
    by_cases hs : s = "supplier 1"
    · subst hs; simpa [aStar] using comp_nonneg i m
    · simp [aStar, hs]
  · intro i
    have h := demand_le_100 i
    simp only [aStar]
    linarith
  · intro i; simp [aStar]
  · intro i m s
    by_cases hs : s = "supplier 1" <;> simp [aStar, hs]

theorem aStar_feasible : Feasible aStar := by
  refine ⟨aStar_varOk, ?_⟩
  intro c hc
  unfold allConstraints at hc
  rcases List.mem_append.1 hc with hc | h5
  · rcases List.mem_append.1 hc with hc | h4
    · rcases List.mem_append.1 hc with hc | h3
      · rcases List.mem_append.1 hc with h1 | h2
        · obtain ⟨i, hi, rfl⟩ := List.mem_map.1 h1
          exact aStar_sat_primary i hi
        · obtain ⟨i, hi, rfl⟩ := List.mem_map.1 h2
          exact aStar_sat_tertiary i
      · obtain ⟨i, _, hmem⟩ := List.mem_flatMap.1 h3
        obtain ⟨m, _, rfl⟩ := List.mem_map.1 hmem
        exact aStar_sat_eqCon i m
    · obtain ⟨i, hi, rfl⟩ := List.mem_map.1 h4
      exact aStar_sat_demand i hi
  · obtain ⟨i, _, hmem⟩ := List.mem_flatMap.1 h5
    obtain ⟨m, _, hmem2⟩ := List.mem_flatMap.1 hmem
    rcases List.mem_cons.1 hmem2 with rfl | hlink
    · exact aStar_sat_oneSup i m
    · obtain ⟨s, _, rfl⟩ := List.mem_map.1 hlink
      exact aStar_sat_link i m s

/-! ### Membership of each constraint family in the built model -/

theorem primaryCon_mem {i : String} (hi : i ∈ lines) :
    primaryCon i ∈ allConstraints := by
  unfold allConstraints
  exact List.mem_append_left _ (List.mem_append_left _ (List.mem_append_left _
    (List.mem_append_left _ (List.mem_map_of_mem _ hi))))

theorem tertiaryCon_mem {i : String} (hi : i ∈ lines) :
    tertiaryCon i ∈ allConstraints := by
  unfold allConstraints
  exact List.mem_append_left _ (List.mem_append_left _ (List.mem_append_left _
    (List.mem_append_right _ (List.mem_map_of_mem _ hi))))

theorem eqCon_mem {i m : String} (hi : i ∈ lines) (hm : m ∈ materials i) :
    eqCon i m ∈ allConstraints := by
  unfold allConstraints
  refine List.mem_append_left _ (List.mem_append_left _
    (List.mem_append_right _ (List.mem_flatMap.2 ⟨i, ?_, ?_⟩)))
  · rw [compKeys_eq_lines]; exact hi
  · exact List.mem_map_of_mem _ hm

theorem demandCon_mem {i : String} (hi : i ∈ lines) :
    demandCon i ∈ allConstraints := by
  unfold allConstraints
  exact List.mem_append_left _ (List.mem_append_right _
    (List.mem_map_of_mem _ hi))

theorem oneSupCon_mem {i m : String} (hi : i ∈ lines) (hm : m ∈ materials i) :
    oneSupCon i m ∈ allConstraints := by
  unfold allConstraints
  exact List.mem_append_right _ (List.mem_flatMap.2 ⟨i, hi,
    List.mem_flatMap.2 ⟨m, hm, List.mem_cons_self _ _⟩⟩)

theorem linkCon_mem {i m s : String} (hi : i ∈ lines) (hm : m ∈ materials i)
    (hs : s ∈ suppliers) : linkCon i m s ∈ allConstraints := by
  unfold allConstraints
  exact List.mem_append_right _ (List.mem_flatMap.2 ⟨i, hi,
    List.mem_flatMap.2 ⟨m, hm,
      List.mem_cons_of_mem _ (List.mem_map_of_mem _ hs)⟩⟩)

/-! ### What feasibility forces, family by family -/

theorem feasible_eqCon {a : Var → ℚ} (ha : Feasible a) {i m : String}
    (hi : i ∈ lines) (hm : m ∈ materials i) :
    a (.x i "supplier 1" m) + a (.x i "supplier 2" m) + a (.x i "supplier 3" m)
      = comp i m := by
  have h := ha.2 _ (eqCon_mem hi hm)
  unfold eqCon Constraint.sat at h
  simp [suppliers, costsTbl, evalTerms] at h
  linarith

theorem feasible_oneSup {a : Var → ℚ} (ha : Feasible a) {i m : String}
    (hi : i ∈ lines) (hm : m ∈ materials i) :
    a (.z i m "supplier 1") + a (.z i m "supplier 2") + a (.z i m "supplier 3")
      = 1 := by
  have h := ha.2 _ (oneSupCon_mem hi hm)
  unfold oneSupCon Constraint.sat at h
  simp [suppliers, costsTbl, evalTerms] at h
  linarith

theorem feasible_link {a : Var → ℚ} (ha : Feasible a) {i m s : String}
    (hi : i ∈ lines) (hm : m ∈ materials i) (hs : s ∈ suppliers) :
    a (.x i s m) ≤ a (.z i m s) * comp i m := by
  have h := ha.2 _ (linkCon_mem hi hm hs)
  unfold linkCon Constraint.sat at h
  simp [evalTerms] at h
  nlinarith [h]

theorem feasible_primary {a : Var → ℚ} (ha : Feasible a) {i : String}
    (hi : i ∈ lines) :
    1 ≤ sumOver (materials i) fun m => a (.x i "supplier 1" m) := by
  have h := ha.2 _ (primaryCon_mem hi)
  unfold primaryCon Constraint.sat at h
  rwa [evalTerms_map_one] at h

theorem feasible_tertiary {a : Var → ℚ} (ha : Feasible a) {i : String}
    (hi : i ∈ lines) :
    sumOver (materials i) (fun m => a (.z i m "supplier 3")) ≤ 2 := by
  have h := ha.2 _ (tertiaryCon_mem hi)
  unfold tertiaryCon Constraint.sat at h
  rwa [evalTerms_map_one] at h

theorem feasible_demand {a : Var → ℚ} (ha : Feasible a) {i : String}
    (hi : i ∈ lines) :
    sumOver suppliers (fun s => sumOver (materials i) fun m => a (.x i s m))
      = demand i + a (.pPlus i) - a (.pMinus i) := by
  have h := ha.2 _ (demandCon_mem hi)
  unfold demandCon Constraint.sat at h
  rw [evalTerms_append] at h
  have hflat : evalTerms a (suppliers.flatMap fun s =>
      (materials i).map fun m => ((1 : ℚ), Var.x i s m)) =
      sumOver suppliers fun s => sumOver (materials i) fun m => a (.x i s m) := by
    unfold suppliers costsTbl
    simp [evalTerms_append, evalTerms_map_one, evalTerms, sumOver,
      Function.comp_def]
  rw [hflat] at h
  simp [evalTerms] at h
  linarith

theorem feasible_exactlyOne {a : Var → ℚ} (ha : Feasible a) {i m : String}
    (hi : i ∈ lines) (hm : m ∈ materials i) :
    (a (.z i m "supplier 1") = 1 ∧ a (.z i m "supplier 2") = 0 ∧
        a (.z i m "supplier 3") = 0) ∨
    (a (.z i m "supplier 1") = 0 ∧ a (.z i m "supplier 2") = 1 ∧
        a (.z i m "supplier 3") = 0) ∨
    (a (.z i m "supplier 1") = 0 ∧ a (.z i m "supplier 2") = 0 ∧
        a (.z i m "supplier 3") = 1) := by
  have hsum := feasible_oneSup ha hi hm
  have h1 := ha.1.2.2.2 i m "supplier 1"
  have h2 := ha.1.2.2.2 i m "supplier 2"
  have h3 := ha.1.2.2.2 i m "supplier 3"
  rcases h1 with e1 | e1 <;> rcases h2 with e2 | e2 <;> rcases h3 with e3 | e3 <;>
    rw [e1, e2, e3] at hsum <;> norm_num at hsum <;> tauto

/-! ### The claims -/

/-- Claim C1: for every product line and every material of its composition,
the built model contains the equality constraint stating that the sum of the
purchase variables x[line, supplier, material] over all suppliers equals the
required quantity of that material exactly, with no slack; consequently every
feasible assignment, and in particular every optimal assignment, satisfies
this equality. -/
theorem claim1_exact_requirement_constraint (i m : String)
    (hi : i ∈ lines) (hm : m ∈ materials i) :
    eqCon i m ∈ allConstraints ∧
    (∀ a, Feasible a →
      a (.x i "supplier 1" m) + a (.x i "supplier 2" m) + a (.x i "supplier 3" m)
        = comp i m) ∧
    (∀ a, Optimal a →
      a (.x i "supplier 1" m) + a (.x i "supplier 2" m) + a (.x i "supplier 3" m)
        = comp i m) :=
  ⟨eqCon_mem hi hm,
   fun _ ha => feasible_eqCon ha hi hm,
   fun _ ha => feasible_eqCon ha.1 hi hm⟩

/-- Witness for C1 at line A1, material white, with the concrete feasible
assignment aStar. -/
theorem claim1_exact_requirement_constraint_witness :
    eqCon "A1" "white" ∈ allConstraints ∧
    aStar (.x "A1" "supplier 1" "white") + aStar (.x "A1" "supplier 2" "white")
      + aStar (.x "A1" "supplier 3" "white") = comp "A1" "white" := by
  have h := claim1_exact_requirement_constraint "A1" "white"
    (by decide) (by decide)
  exact ⟨h.1, h.2.1 aStar aStar_feasible⟩

/-- Claim C2: for every product line and every material of its composition,
the built model contains the constraint that the binary indicators
z[line, material, supplier] sum to exactly 1 over the suppliers, so every
feasible assignment chooses exactly one supplier per (line, material) pair. -/
theorem claim2_single_sourcing_constraint (i m : String)
    (hi : i ∈ lines) (hm : m ∈ materials i) :
    oneSupCon i m ∈ allConstraints ∧
    (∀ a, Feasible a →
      a (.z i m "supplier 1") + a (.z i m "supplier 2") + a (.z i m "supplier 3")
        = 1) ∧
    (∀ a, Feasible a →
      (a (.z i m "supplier 1") = 1 ∧ a (.z i m "supplier 2") = 0 ∧
          a (.z i m "supplier 3") = 0) ∨
      (a (.z i m "supplier 1") = 0 ∧ a (.z i m "supplier 2") = 1 ∧
          a (.z i m "supplier 3") = 0) ∨
      (a (.z i m "supplier 1") = 0 ∧ a (.z i m "supplier 2") = 0 ∧
          a (.z i m "supplier 3") = 1)) :=
  ⟨oneSupCon_mem hi hm,
   fun _ ha => feasible_oneSup ha hi hm,
   fun _ ha => feasible_exactlyOne ha hi hm⟩

/-- Witness for C2 at line B3, material pink, with the concrete feasible
assignment aStar. -/
theorem claim2_single_sourcing_constraint_witness :
    oneSupCon "B3" "pink" ∈ allConstraints ∧
    aStar (.z "B3" "pink" "supplier 1") + aStar (.z "B3" "pink" "supplier 2")
      + aStar (.z "B3" "pink" "supplier 3") = 1 := by
  have h := claim2_single_sourcing_constraint "B3" "pink"
    (by decide) (by decide)
  exact ⟨h.1, h.2.1 aStar aStar_feasible⟩

/-- Claim C3: for every (line, supplier, material) triple with the material
in the line's composition, the built model contains the linking constraint
x[line, supplier, material] <= z[line, material, supplier] * required
quantity, so in every feasible assignment a non-chosen supplier's purchase
is forced to zero and the chosen supplier's purchase is capped at exactly
the required quantity. -/
theorem claim3_linking_constraint (i m s : String)
    (hi : i ∈ lines) (hm : m ∈ materials i) (hs : s ∈ suppliers) :
    linkCon i m s ∈ allConstraints ∧
    (∀ a, Feasible a → a (.x i s m) ≤ a (.z i m s) * comp i m) ∧
    (∀ a, Feasible a → a (.z i m s) = 0 → a (.x i s m) = 0) ∧
    (∀ a, Feasible a → a (.z i m s) = 1 → a (.x i s m) ≤ comp i m) := by
  refine ⟨linkCon_mem hi hm hs, fun a ha => feasible_link ha hi hm hs,
    fun a ha hz => ?_, fun a ha hz => ?_⟩
  · have hub := feasible_link ha hi hm hs
    rw [hz] at hub
    have hlb := ha.1.1 i s m
    simp at hub
    linarith
  · have hub := feasible_link ha hi hm hs
    rw [hz] at hub
    simpa using hub

/-- Witness for C3 at line A1, material gray, supplier 2, with the concrete
feasible assignment aStar, for which the indicator is 0 and the purchase is
forced to 0. -/
theorem claim3_linking_constraint_witness :
    linkCon "A1" "gray" "supplier 2" ∈ allConstraints ∧
    aStar (.z "A1" "gray" "supplier 2") = 0 ∧
    aStar (.x "A1" "supplier 2" "gray") = 0 := by
  have h := claim3_linking_constraint "A1" "gray" "supplier 2"
    (by decide) (by decide) (by decide)
  have hz : aStar (.z "A1" "gray" "supplier 2") = 0 := by simp [aStar]
  exact ⟨h.1, hz, h.2.2.1 aStar aStar_feasible hz⟩

/-- Claim C4 counterexample: the primary-supplier floor constraint that the
script builds for line A1 (line 59 of the source) is a row over the
continuous purchase variables x — it has terms, and every one of its terms
is an x variable, none a z indicator — refuting the claim that both
sourcing-diversity constraints are expressed over the binary indicators. -/
theorem claim4_counterexample :
    primaryCon "A1" ∈ allConstraints ∧
    (primaryCon "A1").lhs ≠ [] ∧
    (∀ t ∈ (primaryCon "A1").lhs, isXVar t.2 = true) ∧
    (∀ t ∈ (primaryCon "A1").lhs, isZVar t.2 = false) := by
  refine ⟨primaryCon_mem (by decide), by decide, ?_, ?_⟩ <;>
    · intro t ht
      simp only [primaryCon] at ht
      obtain ⟨m, _, rfl⟩ := List.mem_map.1 ht
      rfl

/-- Claim C4 as amended: the tertiary-supplier ceiling is expressed over the
indicator variables z, counting distinct material assignments, but the
primary-supplier floor is expressed over the continuous purchase variables x,
requiring at least one unit of purchased mass from supplier 1 per line; both
rows are in the built model and bind every feasible assignment. -/
theorem claim4_amended (i : String) (hi : i ∈ lines) :
    (tertiaryCon i ∈ allConstraints ∧
      ∀ t ∈ (tertiaryCon i).lhs, isZVar t.2 = true) ∧
    (primaryCon i ∈ allConstraints ∧
      ∀ t ∈ (primaryCon i).lhs, isXVar t.2 = true) ∧
    (∀ a, Feasible a →
      1 ≤ sumOver (materials i) fun m => a (.x i "supplier 1" m)) ∧
    (∀ a, Feasible a →
      sumOver (materials i) (fun m => a (.z i m "supplier 3")) ≤ 2) := by
  refine ⟨⟨tertiaryCon_mem hi, ?_⟩, ⟨primaryCon_mem hi, ?_⟩,
    fun a ha => feasible_primary ha hi,
    fun a ha => feasible_tertiary ha hi⟩ <;>
    · intro t ht
      simp only [tertiaryCon, primaryCon] at ht
      obtain ⟨m, _, rfl⟩ := List.mem_map.1 ht
      rfl

/-- Witness for the amended C4 at line A1 with the concrete feasible
assignment aStar. -/
theorem claim4_amended_witness :
    tertiaryCon "A1" ∈ allConstraints ∧
    primaryCon "A1" ∈ allConstraints ∧
    1 ≤ sumOver (materials "A1") fun m => aStar (.x "A1" "supplier 1" m) := by
  have h := claim4_amended "A1" (by decide)
  exact ⟨h.1.1, h.2.1.1, h.2.2.1 aStar aStar_feasible⟩

/-- Claim C5: the minimized objective is the total purchase cost
sum of x[i,s,m] * price[s][m] plus w_plus times the summed over-production
penalties plus w_minus times the summed under-production penalties, with
w_plus = 0.02 and w_minus = 0.05, and w_minus > w_plus: under-production is
penalized more heavily than over-production. -/
theorem claim5_objective_weights :
    (∀ a, objective a =
      purchaseCost a + wPlus * totalPPlus a + wMinus * totalPMinus a) ∧
    wPlus = 0.02 ∧ wMinus = 0.05 ∧ wPlus < wMinus := by
  refine ⟨fun _ => rfl, rfl, rfl, ?_⟩
  norm_num [wPlus, wMinus]

/-- Claim C6: for every product line the built model contains the
demand-matching constraint: total purchased quantity over all suppliers and
the line's materials equals the declared demand plus p_plus minus p_minus,
and in every feasible assignment both penalty variables are non-negative —
a soft-penalty equation rather than a hard equality with demand. -/
theorem claim6_soft_demand_constraint (i : String) (hi : i ∈ lines) :
    demandCon i ∈ allConstraints ∧
    (∀ a, Feasible a →
      sumOver suppliers (fun s => sumOver (materials i) fun m => a (.x i s m))
          = demand i + a (.pPlus i) - a (.pMinus i)
        ∧ 0 ≤ a (.pPlus i) ∧ 0 ≤ a (.pMinus i)) :=
  ⟨demandCon_mem hi,
   fun _ ha => ⟨feasible_demand ha hi, ha.1.2.1 i, ha.1.2.2.1 i⟩⟩

/-- Witness for C6 at line A1 with the concrete feasible assignment aStar,
whose total purchased quantity is 100 while the demand is 7: the equation
holds with p_plus = 93, demonstrating that the constraint is soft. -/
theorem claim6_soft_demand_constraint_witness :
    demandCon "A1" ∈ allConstraints ∧
    sumOver suppliers (fun s => sumOver (materials "A1") fun m =>
        aStar (.x "A1" s m))
      = demand "A1" + aStar (.pPlus "A1") - aStar (.pMinus "A1") ∧
    aStar (.pPlus "A1") = 93 := by
  have h := claim6_soft_demand_constraint "A1" (by decide)
  refine ⟨h.1, (h.2 aStar aStar_feasible).1, ?_⟩
  simp [aStar, demand, lookup1, demandTbl]
  norm_num

/-! ### Lemmas about the fallible objective construction -/

theorem mapME_error_of_mem {f : α → Except PyErr β} {l : List α} {a : α}
    (hmem : a ∈ l) (e0 : PyErr) (he : f a = .error e0) :
    ∃ e, mapME f l = .error e := by
  induction l with
  | nil => cases hmem
  | cons b rest ih =>
    rcases List.mem_cons.1 hmem with rfl | hmem2
    · exact ⟨e0, by unfold mapME; rw [he]⟩
    · cases hfb : f b with
      | error e => exact ⟨e, by unfold mapME; rw [hfb]⟩
      | ok v =>
        obtain ⟨e, hrec⟩ := ih hmem2
        exact ⟨e, by unfold mapME; rw [hfb, hrec]⟩

theorem mapME_error_mem {f : α → Except PyErr β} {l : List α} {e : PyErr}
    (h : mapME f l = .error e) : ∃ a ∈ l, f a = .error e := by
  induction l with
  | nil => simp [mapME] at h
  | cons b rest ih =>
    unfold mapME at h
    cases hfb : f b with
    | error e2 =>
      rw [hfb] at h
      simp only [Except.error.injEq] at h
      subst h
      exact ⟨b, List.mem_cons_self _ _, hfb⟩
    | ok v =>
      rw [hfb] at h
      cases hrec : mapME f rest with
      | error e2 =>
        rw [hrec] at h
        simp only [Except.error.injEq] at h
        subst h
        obtain ⟨a, ha, hfa⟩ := ih hrec
        exact ⟨a, List.mem_cons_of_mem _ ha, hfa⟩
      | ok bs => rw [hrec] at h; cases h

theorem priceLookup_error_shape {costsD : List (String × List (String × ℚ))}
    {s m : String} {e : PyErr}
    (h : priceLookup costsD s m = .error e) : ∃ k, e = .keyError k := by
  unfold priceLookup at h
  cases h1 : costsD.find? fun p => p.1 == s with
  | none => simp only [h1] at h; exact ⟨s, (Except.error.inj h).symm⟩
  | some p =>
    simp only [h1] at h
    cases h2 : p.2.find? fun q => q.1 == m with
    | none => simp only [h2] at h; exact ⟨m, (Except.error.inj h).symm⟩
    | some q => simp only [h2] at h; cases h

theorem buildObjective_error_shape {costsD : List (String × List (String × ℚ))}
    {e : PyErr} (h : buildObjective costsD = .error e) : ∃ k, e = .keyError k := by
  obtain ⟨t, _, hft⟩ := mapME_error_mem h
  unfold objTerm at hft
  cases hp : priceLookup costsD t.2.1 t.2.2 with
  | error e2 =>
    simp only [hp] at hft
    simp only [Except.error.injEq] at hft
    subst hft
    exact priceLookup_error_shape hp
  | ok c => simp only [hp] at hft; cases hft

/-- Claim C7 counterexample: a missing price raises a bare KeyError naming
only the material, not a MissingPriceData error naming the (supplier,
material) pair.  Removing the pink price of supplier 2 and removing the pink
price of supplier 3 produce the identical error KeyError "pink", although
the offending supplier differs, so the raised error cannot identify the
(supplier, material) pair. -/
theorem claim7_counterexample :
    buildObjective costsMissingS2pink = .error (.keyError "pink") ∧
    buildObjective costsMissingS3pink = .error (.keyError "pink") ∧
    priceLookup costsMissingS2pink "supplier 2" "pink"
      = .error (.keyError "pink") ∧
    priceLookup costsMissingS2pink "supplier 3" "pink" = .ok 20 ∧
    priceLookup costsMissingS3pink "supplier 3" "pink"
      = .error (.keyError "pink") ∧
    priceLookup costsMissingS3pink "supplier 2" "pink" = .ok 30 :=
  ⟨rfl, rfl, rfl, rfl, rfl, rfl⟩

/-- Claim C7 as amended: if the price table lacks an entry for some material
of some line's composition under some supplier, then model construction
fails during objective building with a Python KeyError naming a missing
material key (there is no MissingPriceData error and the supplier is not
identified), and the solver is never invoked: the whole pipeline returns
that error for every solver. -/
theorem claim7_missing_price_amended
    (costsD : List (String × List (String × ℚ))) (s : String)
    (row : String × List (String × ℚ))
    (hfind : costsD.find? (fun p => p.1 == s) = some row)
    (i m : String) (hi : i ∈ lines) (hm : m ∈ materials i)
    (hmiss : row.2.find? (fun q => q.1 == m) = none) :
    ∃ k, buildModel costsD = .error (.keyError k) ∧
      ∀ solver, runScript costsD solver = .error (.keyError k) := by
  have hrow_mem : row ∈ costsD := List.mem_of_find?_eq_some hfind
  have hs_eq : row.1 = s := by
    have := List.find?_some hfind
    exact eq_of_beq this
  have hkey : s ∈ costsD.map Prod.fst := by
    rw [← hs_eq]
    exact List.mem_map_of_mem _ hrow_mem
  have htrip : (i, s, m) ∈ objTriples costsD := by
    unfold objTriples
    exact List.mem_flatMap.2 ⟨i, hi, List.mem_flatMap.2 ⟨s, hkey,
      List.mem_map_of_mem _ hm⟩⟩
  have hfail : objTerm costsD (i, s, m)
      = (.error (.keyError m) : Except PyErr (ℚ × Var)) := by
    have hpl : priceLookup costsD s m = .error (.keyError m) := by
      unfold priceLookup
      simp only [hfind, hmiss]
    unfold objTerm
    simp only [hpl]
  obtain ⟨e, hobj⟩ := mapME_error_of_mem htrip (.keyError m) hfail
  obtain ⟨k, hk⟩ := buildObjective_error_shape hobj
  subst hk
  have hobj2 : buildObjective costsD = .error (.keyError k) := hobj
  refine ⟨k, ?_, ?_⟩
  · unfold buildModel
    simp only [hobj2]
  · intro solver
    unfold runScript buildModel
    simp only [hobj2]

/-- Witness for the amended C7: the price table missing the pink price of
supplier 2 makes the pipeline fail before any solver runs. -/
theorem claim7_missing_price_amended_witness :
    ∃ k, buildModel costsMissingS2pink = .error (.keyError k) ∧
      ∀ solver, runScript costsMissingS2pink solver = .error (.keyError k) :=
  claim7_missing_price_amended costsMissingS2pink "supplier 2"
    ("supplier 2", [("white", 32), ("yellow", 20), ("gray", 40)])
    rfl "A1" "pink" (by decide) (by decide) rfl

/-! ### The detail view -/

theorem detailEntries_mem_iff (val : Var → ℚ) (i m s : String) (q : ℚ) :
    (i, m, s, q) ∈ detailEntries val ↔
      i ∈ compKeys ∧ m ∈ materials i ∧ s ∈ suppliers ∧
        val (.x i s m) ≠ 0 ∧ q = val (.x i s m) := by
  unfold detailEntries
  simp only [List.mem_flatMap, List.mem_map, List.mem_filter,
    decide_eq_true_eq, Prod.mk.injEq]
  constructor
  · rintro ⟨i2, hi2, m2, hm2, s2, ⟨hs2, hne⟩, rfl, rfl, rfl, rfl⟩
    exact ⟨hi2, hm2, hs2, hne, rfl⟩
  · rintro ⟨hi, hm, hs, hne, rfl⟩
    exact ⟨i, hi, m, hm, s, ⟨hs, hne⟩, rfl, rfl, rfl, rfl⟩

/-- Claim C8 counterexample: the detail view applies no zero-tolerance
epsilon.  An assignment whose only non-zero value is the tiny
1/1000000000 — far below any sensible tolerance such as 1/1000000 — still
produces a detail entry: the comparison of line 89 is an exact inequality
with 0. -/
theorem claim8_counterexample :
    ("A1", "white", "supplier 2", (1 : ℚ) / 1000000000)
        ∈ detailEntries tinyVal ∧
    (0 : ℚ) < 1 / 1000000000 ∧ ((1 : ℚ) / 1000000000) < 1 / 1000000 := by
  have hval : tinyVal (.x "A1" "supplier 2" "white") = 1 / 1000000000 := rfl
  refine ⟨(detailEntries_mem_iff tinyVal "A1" "white" "supplier 2" _).2
    ⟨by decide, by decide, by decide, ?_, rfl⟩, by norm_num, by norm_num⟩
  rw [hval]
  norm_num

/-- Claim C8 as amended: the detail view emits an entry for exactly those
(line, material, supplier) triples whose solved value compares non-equal
with 0 — an exact comparison, with no zero-tolerance epsilon, so
arbitrarily small non-zero values are surfaced — and when several suppliers
carry non-zero quantity for the same (line, material) pair, all of them are
emitted: the loop does not stop at the first match. -/
theorem claim8_detail_view_amended (val : Var → ℚ) (i m s : String) (q : ℚ) :
    (i, m, s, q) ∈ detailEntries val ↔
      i ∈ compKeys ∧ m ∈ materials i ∧ s ∈ suppliers ∧
        val (.x i s m) ≠ 0 ∧ q = val (.x i s m) :=
  detailEntries_mem_iff val i m s q

/-- Claim C9 counterexample: the script inspects no solver status after
line 82; the report for an Infeasible result is identical to the report for
an Optimal result with the same variable values, and its detail view is not
empty — a report is produced even when the solver says Infeasible. -/
theorem claim9_counterexample :
    scriptReport ⟨Status.infeasible, oneVal⟩
        = scriptReport ⟨Status.optimal, oneVal⟩ ∧
    ("A1", "white", "supplier 1", (1 : ℚ))
        ∈ (scriptReport ⟨Status.infeasible, oneVal⟩).detail := by
  refine ⟨rfl, ?_⟩
  exact (detailEntries_mem_iff oneVal "A1" "white" "supplier 1" 1).2
    ⟨by decide, by decide, by decide, by norm_num [oneVal], rfl⟩

/-- Claim C9 as amended: the script never branches on the solver status; the
detail view, the total cost and the summary table are produced from the
variable values unconditionally, so an Infeasible status yields exactly the
same report as any other status, rather than a terminal status with no
partial report. -/
theorem claim9_status_ignored_amended :
    (∀ (st st' : Status) (v : Var → ℚ),
      scriptReport ⟨st, v⟩ = scriptReport ⟨st', v⟩) ∧
    (scriptReport ⟨Status.infeasible, oneVal⟩).detail ≠ [] := by
  refine ⟨fun _ _ _ => rfl, ?_⟩
  intro hnil
  have hmem := (detailEntries_mem_iff oneVal "A1" "white" "supplier 1" 1).2
    ⟨by decide, by decide, by decide, by norm_num [oneVal], rfl⟩
  have hdet : (scriptReport ⟨Status.infeasible, oneVal⟩).detail
      = detailEntries oneVal := rfl
  rw [hdet] at hnil
  rw [hnil] at hmem
  exact absurd hmem (List.not_mem_nil _)

/-! ### The summary-table renderer -/

theorem pyFormatRow_cons_short (i : String) (cells : List String)
    (h : cells.length < 4) :
    pyFormatRow (i :: cells) = .error .indexError := by
  match cells, h with
  | [], _ => rfl
  | [a], _ => rfl
  | [a, b], _ => rfl
  | [a, b, c], _ => rfl
  | a :: b :: c :: d :: rest, h => simp at h; omega

theorem pyFormatRow_cons_ok (i : String) (cells : List String)
    (h : 4 ≤ cells.length) :
    ∃ out, pyFormatRow (i :: cells) = .ok out := by
  match cells, h with
  | [], h => simp at h
  | [a], h => simp at h
  | [a, b], h => simp at h
  | [a, b, c], h => simp at h
  | a :: b :: c :: d :: rest, _ => exact ⟨_, rfl⟩

theorem pyFormatRow_cons_take (i : String) (cells : List String) :
    pyFormatRow (i :: cells.take 4) = pyFormatRow (i :: cells) := by
  match cells with
  | [] => rfl
  | [a] => rfl
  | [a, b] => rfl
  | [a, b, c] => rfl
  | a :: b :: c :: d :: rest => rfl

theorem rowFor_length (val : Var → ℚ) (costsKeys : List String) (i : String)
    (mrow : List (String × ℚ)) :
    (rowFor val costsKeys i mrow).length = mrow.length + 1 := by
  simp [rowFor]

theorem pyFormatRow_rowFor_short (val : Var → ℚ) (costsKeys : List String)
    (i : String) (mrow : List (String × ℚ)) (h : mrow.length < 4) :
    pyFormatRow (rowFor val costsKeys i mrow) = .error .indexError := by
  unfold rowFor
  exact pyFormatRow_cons_short i _ (by simpa using h)

theorem pyFormatRow_rowFor_ok (val : Var → ℚ) (costsKeys : List String)
    (i : String) (mrow : List (String × ℚ)) (h : 4 ≤ mrow.length) :
    ∃ out, pyFormatRow (rowFor val costsKeys i mrow) = .ok out := by
  unfold rowFor
  exact pyFormatRow_cons_ok i _ (by simpa using h)

theorem buildRows_error_of_short (val : Var → ℚ) (costsKeys : List String)
    (compT : List (String × List (String × ℚ)))
    (h : ∃ p ∈ compT, p.2.length < 4) :
    buildRows val costsKeys compT = .error .indexError := by
  induction compT with
  | nil => obtain ⟨p, hp, _⟩ := h; cases hp
  | cons b rest ih =>
    obtain ⟨i2, mrow⟩ := b
    obtain ⟨p, hp, hlen⟩ := h
    rcases List.mem_cons.1 hp with rfl | hp2
    · have hrow := pyFormatRow_rowFor_short val costsKeys i2 mrow hlen
      unfold buildRows
      simp only [hrow]
    · cases hrow : pyFormatRow (rowFor val costsKeys i2 mrow) with
      | error e =>
        have he : e = .indexError := by
          rcases Nat.lt_or_ge mrow.length 4 with hb | hb
          · have h2 := pyFormatRow_rowFor_short val costsKeys i2 mrow hb
            rw [h2] at hrow
            exact (Except.error.inj hrow).symm
          · obtain ⟨out, hout⟩ := pyFormatRow_rowFor_ok val costsKeys i2 mrow hb
            rw [hout] at hrow
            cases hrow
        subst he
        unfold buildRows
        simp only [hrow]
      | ok r =>
        have hrec := ih ⟨p, hp2, hlen⟩
        unfold buildRows
        simp only [hrow, hrec]

theorem buildRows_ok_of_all4 (val : Var → ℚ) (costsKeys : List String)
    (compT : List (String × List (String × ℚ)))
    (h : ∀ p ∈ compT, 4 ≤ p.2.length) :
    ∃ str, buildRows val costsKeys compT = .ok str := by
  induction compT with
  | nil => exact ⟨"", rfl⟩
  | cons b rest ih =>
    obtain ⟨i2, mrow⟩ := b
    obtain ⟨out, hout⟩ := pyFormatRow_rowFor_ok val costsKeys i2 mrow
      (by simpa using h (i2, mrow) (List.mem_cons_self _ _))
    obtain ⟨str, hstr⟩ := ih fun p hp => h p (List.mem_cons_of_mem _ hp)
    refine ⟨out ++ str, ?_⟩
    unfold buildRows
    simp only [hout, hstr]

theorem buildRows_take4 (val : Var → ℚ) (costsKeys : List String)
    (compT : List (String × List (String × ℚ))) :
    buildRows val costsKeys (compT.map fun p => (p.1, p.2.take 4))
      = buildRows val costsKeys compT := by
  induction compT with
  | nil => rfl
  | cons b rest ih =>
    obtain ⟨i2, mrow⟩ := b
    have hhead : pyFormatRow (rowFor val costsKeys i2 (mrow.take 4))
        = pyFormatRow (rowFor val costsKeys i2 mrow) := by
      unfold rowFor
      rw [List.map_take]
      exact pyFormatRow_cons_take _ _
    rw [List.map_cons]
    unfold buildRows
    rw [hhead, ih]

/-- Claim C10: the summary-table renderer formats each row by indexing the
fixed positions row[0] through row[4] under the hard-coded four-column
header, so (a) a composition table in which some line has fewer than four
materials makes it fail with IndexError, (b) a table in which every line has
at least four materials renders without error, and (c) the output never
depends on materials beyond the first four of a line: extra cells are
silently omitted (truncating every line to its first four materials yields
the identical output). -/
theorem claim10_table_renderer (val : Var → ℚ) (costsKeys : List String)
    (compT : List (String × List (String × ℚ))) :
    ((∃ p ∈ compT, p.2.length < 4) →
      generate_formatted_table_with_suppliers val compT costsKeys
        = .error .indexError) ∧
    ((∀ p ∈ compT, 4 ≤ p.2.length) →
      ∃ str, generate_formatted_table_with_suppliers val compT costsKeys
        = .ok str) ∧
    generate_formatted_table_with_suppliers val
        (compT.map fun p => (p.1, p.2.take 4)) costsKeys
      = generate_formatted_table_with_suppliers val compT costsKeys := by
  refine ⟨fun h => ?_, fun h => ?_, ?_⟩
  · have hb := buildRows_error_of_short val costsKeys compT h
    unfold generate_formatted_table_with_suppliers
    simp only [hb]
  · obtain ⟨str, hb⟩ := buildRows_ok_of_all4 val costsKeys compT h
    refine ⟨tableHeader ++ tableDivider ++ str, ?_⟩
    unfold generate_formatted_table_with_suppliers
    simp only [hb]
  · unfold generate_formatted_table_with_suppliers
    rw [buildRows_take4]

/-- Witness for C10: a one-line table with three materials crashes with
IndexError, the script's own sixteen-line four-material table renders, and
a five-material line renders identically to its four-material truncation. -/
theorem claim10_table_renderer_witness :
    generate_formatted_table_with_suppliers oneVal compShort suppliers
      = .error .indexError ∧
    (∃ str, generate_formatted_table_with_suppliers oneVal compTbl suppliers
      = .ok str) ∧
    generate_formatted_table_with_suppliers oneVal
        (compLong.map fun p => (p.1, p.2.take 4)) suppliers
      = generate_formatted_table_with_suppliers oneVal compLong suppliers := by
  refine ⟨(claim10_table_renderer oneVal suppliers compShort).1 ?_,
    (claim10_table_renderer oneVal suppliers compTbl).2.1 ?_,
    (claim10_table_renderer oneVal suppliers compLong).2.2⟩
  · refine ⟨("L1", [("white", 1), ("yellow", 2), ("pink", 3)]), ?_, by decide⟩
    simp [compShort]
  · decide

end CostMin
